import Mathlib

/-!
Verification of the AeroFit analytics aggregation pipeline
(`src/aerofit_analysis.py`, `src/dashboard.py`).

The pipeline is a sequence of pandas calls over a fixed-schema table of
purchase records.  We embed the table as a `List Record` (respectively, at
the CSV layer, as a list of rows of cells), and each pandas operation used
by the scripts as an explicit Lean function:

* `pd.crosstab(df['Product'], col, normalize='index') * 100`  ↦ `ctTable`
* `df.groupby('Product')[col].agg(['mean','median','std']).round(2)` ↦ `aggTable`
* `df['Product'].value_counts(normalize=True) * 100`          ↦ `market_share`
* `df[numeric_cols].corr()`                                   ↦ `correlation`
* `scipy.stats.chi2_contingency`                              ↦ `chi2_contingency`
* `pd.read_csv` / column access / numeric coercion            ↦ `read_csv`, `getCol`, `parseNumCol`

Floating-point numbers are modelled by exact rationals (`ℚ`); pandas `NaN`
results are modelled by `Option` (`none` = NaN / absent).
-/

set_option linter.unusedSectionVars false

namespace Aerofit

/-- A purchase record: one row of the AeroFit CSV with the fixed header
Product, Age, Gender, Education, MaritalStatus, Usage, Fitness, Income, Miles. -/
structure Record where
  product : String
  age : ℚ
  gender : String
  education : ℚ
  maritalStatus : String
  usage : ℚ
  fitness : ℚ
  income : ℚ
  miles : ℚ
deriving DecidableEq, Repr

section Tables

variable {α β γ κ : Type} [DecidableEq α] [DecidableEq β] [DecidableEq κ]

/-- Number of pairs whose key (first component) is `p`: the row total used by
`pd.crosstab(..., normalize='index')` for index value `p`. -/
def keyCount (l : List (α × β)) (p : α) : ℕ :=
  (l.filter (fun x => x.1 = p)).length

/-- Number of joint occurrences of index value `p` and column value `v`:
one cell of the un-normalized contingency table `pd.crosstab`. -/
def ctCount (l : List (α × β)) (p : α) (v : β) : ℕ :=
  (l.filter (fun x => x.1 = p ∧ x.2 = v)).length

/-- One cell of `pd.crosstab(..., normalize='index') * 100`. -/
def ctPct (l : List (α × β)) (p : α) (v : β) : ℚ :=
  (ctCount l p v : ℚ) / (keyCount l p : ℚ) * 100

/-- Index of the contingency table: the distinct observed key values.
(`pd.crosstab` only creates rows for values that occur in the data.) -/
def tableKeys (l : List (α × β)) : List α :=
  (l.map Prod.fst).dedup

/-- Columns of the contingency table: the distinct observed column values. -/
def tableVals (l : List (α × β)) : List β :=
  (l.map Prod.snd).dedup

/-- The full row-normalized percentage table
`pd.crosstab(df['Product'], col, normalize='index') * 100`, as an association
list from index value to its row of percentages. -/
def ctTable (l : List (α × β)) : List (α × List ℚ) :=
  (tableKeys l).map (fun p => (p, (tableVals l).map (fun v => ctPct l p v)))

/-- Row lookup `.loc[p]` on an association-list table: `none` models the
pandas `KeyError` raised for an absent label. -/
def lookupRow (rows : List (α × γ)) (p : α) : Option γ :=
  (rows.find? (fun x => x.1 = p)).map Prod.snd

end Tables

section Aggregation

/-- Projection of the record list onto the (Product, column) pairs a
pandas crosstab or groupby over `df['Product']` works with. -/
def pairs {κ : Type} (df : List Record) (f : Record → κ) : List (String × κ) :=
  df.map (fun r => (r.product, f r))

/-- Number of records of product `p` (one group's size). -/
def rowCount (df : List Record) (p : String) : ℕ :=
  (df.filter (fun r => r.product = p)).length

/-- The distinct product labels occurring in the data, the common index of
every product-keyed summary table. -/
def productKeys (df : List Record) : List String :=
  (df.map (fun r => r.product)).dedup

/-- The numeric values of column `f` within the product-`p` group:
`df[df['Product'] == p][col]`. -/
def groupVals (l : List (String × ℚ)) (p : String) : List ℚ :=
  (l.filter (fun x => x.1 = p)).map Prod.snd

/-- `df[df['Product'] == p][col]` for a record list. -/
def valuesFor (df : List Record) (p : String) (f : Record → ℚ) : List ℚ :=
  groupVals (pairs df f) p

/-- pandas `Series.mean`: NaN (`none`) on an empty series, else the sum
divided by the length. -/
def smean (l : List ℚ) : Option ℚ :=
  if l.length = 0 then none else some (l.sum / (l.length : ℚ))

/-- Insert into a sorted list (helper for the median's sort). -/
def insertSorted (x : ℚ) : List ℚ → List ℚ
  | [] => [x]
  | y :: t => if x ≤ y then x :: y :: t else y :: insertSorted x t

/-- Sort a list of rationals ascending (insertion sort; pandas sorts the
series before taking the middle element(s) for the median). -/
def sortAsc (l : List ℚ) : List ℚ :=
  l.foldr insertSorted []

/-- pandas `Series.median`: NaN on an empty series; the middle element of
the sorted values for odd length, the average of the two middle elements
for even length. -/
def smedian (l : List ℚ) : Option ℚ :=
  if l.length = 0 then none
  else
    let s := sortAsc l
    let n := l.length
    if n % 2 = 1 then some (s.getD (n / 2) 0)
    else some ((s.getD (n / 2 - 1) 0 + s.getD (n / 2) 0) / 2)

/-- pandas `Series.std` (sample standard deviation, `ddof = 1`),
represented by its square — the sample variance — so as to stay inside
exact rational arithmetic: `std = √ (sstdSq)`, and `std` is NaN or zero
exactly when its square is.  For a series of fewer than two elements the
result is NaN (`none`), never zero. -/
def sstdSq (l : List ℚ) : Option ℚ :=
  if l.length < 2 then none
  else
    some ((l.map (fun x => (x - l.sum / (l.length : ℚ)) ^ 2)).sum
      / ((l.length : ℚ) - 1))

/-- One row of `groupby('Product')[col].agg(['mean', 'median', 'std'])`;
the `std` entry is carried as its square (see `sstdSq`). -/
structure AggRow where
  mean : Option ℚ
  median : Option ℚ
  stdSq : Option ℚ
deriving DecidableEq, Repr

/-- The `agg(['mean', 'median', 'std'])` step applied to one group. -/
def aggRow (l : List ℚ) : AggRow :=
  ⟨smean l, smedian l, sstdSq l⟩

/-- `round(q, 2)` as used by `.round(2)`: round to two decimal places. -/
def round2 (q : ℚ) : ℚ :=
  (round (q * 100) : ℚ) / 100

/-- `.round(2)` applied to an agg row; NaN entries stay NaN.  (Rounding the
std is represented on its square by rounding the square; only definedness
of the entry matters to the properties below.) -/
def round2Agg (a : AggRow) : AggRow :=
  ⟨a.mean.map round2, a.median.map round2, a.stdSq.map round2⟩

/-- `df.groupby('Product')[col].agg(['mean','median','std']).round(2)` as an
association list keyed by the observed product labels. -/
def aggTable (l : List (String × ℚ)) : List (String × AggRow) :=
  (tableKeys l).map (fun p => (p, round2Agg (aggRow (groupVals l p))))

/-- The cached summary tables built by `compute_statistics` in
`src/dashboard.py` (lines 138-147). -/
structure Stats where
  gender_dist : List (String × List ℚ)
  marital_dist : List (String × List ℚ)
  education_dist : List (String × List ℚ)
  usage_stats : List (String × AggRow)
  miles_stats : List (String × AggRow)
  income_stats : List (String × AggRow)
deriving DecidableEq, Repr

/-- `compute_statistics(df)` of `src/dashboard.py`: three row-normalized
percentage crosstabs and three mean/median/std group summaries. -/
def compute_statistics (df : List Record) : Stats where
  gender_dist := ctTable (pairs df (fun r => r.gender))
  marital_dist := ctTable (pairs df (fun r => r.maritalStatus))
  education_dist := ctTable (pairs df (fun r => r.education))
  usage_stats := aggTable (pairs df (fun r => r.usage))
  miles_stats := aggTable (pairs df (fun r => r.miles))
  income_stats := aggTable (pairs df (fun r => r.income))

/-- `pd.crosstab(df['Product'], df['Fitness'], normalize='index') * 100`
(`src/dashboard.py` line 358). -/
def fitness_counts (df : List Record) : List (String × List ℚ) :=
  ctTable (pairs df (fun r => r.fitness))

/-- `df.groupby('Product')['Fitness'].agg(['mean','median','std']).round(2)`
(`src/dashboard.py` line 388). -/
def fitness_stats (df : List Record) : List (String × AggRow) :=
  aggTable (pairs df (fun r => r.fitness))

/-- `df['Product'].value_counts(normalize=True) * 100`
(`src/dashboard.py` line 837), as an association list from product label to
its market-share percentage.  (pandas orders the series by descending
count; the order of the association list is immaterial to every lookup and
total below, so the observed first-appearance order is used.) -/
def market_share (df : List Record) : List (String × ℚ) :=
  (productKeys df).map (fun p => (p, (rowCount df p : ℚ) / (df.length : ℚ) * 100))

end Aggregation

section SampleData

/-- A sample record of each product, used to instantiate proved properties
at concrete inputs. -/
def rKP281 : Record :=
  ⟨"KP281", 25, "Male", 14, "Single", 3, 3, 30000, 80⟩

def rKP481 : Record :=
  ⟨"KP481", 30, "Female", 16, "Partnered", 3, 3, 50000, 100⟩

def rKP781 : Record :=
  ⟨"KP781", 28, "Male", 18, "Single", 5, 5, 90000, 180⟩

/-- A three-record data set covering all three product labels. -/
def dfSample : List Record :=
  [rKP281, rKP481, rKP781]

end SampleData

/-- The data set of the spec's market-share example: three groups of sizes
10, 8 and 6 for products "A", "B" and "C" (24 records in total). -/
def dfABC : List Record :=
  List.replicate 10 ⟨"A", 25, "Male", 14, "Single", 3, 3, 30000, 80⟩
    ++ List.replicate 8 ⟨"B", 30, "Female", 16, "Partnered", 3, 3, 50000, 100⟩
    ++ List.replicate 6 ⟨"C", 28, "Male", 18, "Single", 5, 5, 90000, 180⟩

/-- A data set in which the product "KP781" has zero records. -/
def dfMissing : List Record :=
  [rKP281, rKP481]

/-- The three product labels hard-coded by the dashboard's section
templates (`src/dashboard.py` lines 403-405 and 849-851). -/
def section_labels : List String :=
  ["KP281", "KP481", "KP781"]

/-- Sum of products of deviations from the column means: the shared kernel
of the Pearson correlation `df[numeric_cols].corr()` computes (the sample
covariance numerator; the `n - 1` factors cancel in the ratio). -/
def sxy (xs ys : List ℚ) : ℚ :=
  ((xs.zip ys).map
    (fun q => (q.1 - xs.sum / (xs.length : ℚ))
      * (q.2 - ys.sum / (ys.length : ℚ)))).sum

/-- One entry of `df[numeric_cols].corr()`.  The Pearson coefficient is
`r = sxy / √(sxx · syy)`, which is irrational in general; to stay inside
exact arithmetic the entry is represented by its signed square
`r · |r| = sxy · |sxy| / (sxx · syy)`, from which `r` is recovered as the
signed square root.  `r` is symmetric, `1`, or NaN exactly when its signed
square is.  A zero denominator (a constant column, as with an empty or
one-element data set) yields NaN (`none`), as pandas produces. -/
def corrSgnSq (xs ys : List ℚ) : Option ℚ :=
  if sxy xs xs * sxy ys ys = 0 then none
  else some (sxy xs ys * |sxy xs ys| / (sxy xs xs * sxy ys ys))

/-- `numeric_cols = ['Age', 'Education', 'Usage', 'Fitness', 'Income',
'Miles']` (src/aerofit_analysis.py line 94). -/
def numeric_cols : List (Record → ℚ) :=
  [fun r => r.age, fun r => r.education, fun r => r.usage,
    fun r => r.fitness, fun r => r.income, fun r => r.miles]

/-- The correlation-matrix entry for the pair of columns `f`, `g`
(`correlation = df[numeric_cols].corr()`, src/aerofit_analysis.py
line 95), in the signed-square representation of `corrSgnSq`. -/
def correlation (df : List Record) (f g : Record → ℚ) : Option ℚ :=
  corrSgnSq (df.map f) (df.map g)

/-- The full 6 × 6 correlation matrix. -/
def corrMatrix (df : List Record) : List (List (Option ℚ)) :=
  numeric_cols.map (fun f => numeric_cols.map (fun g => correlation df f g))

/-- The plain count matrix of `pd.crosstab(df['Product'], col)` (rows in
first-appearance order; the chi-square statistic, margins and p-value are
invariant under the row/column permutation separating this from pandas'
sorted order). -/
def tableCounts {α β : Type} [DecidableEq α] [DecidableEq β]
    (l : List (α × β)) : List (List ℕ) :=
  (tableKeys l).map (fun p => (tableVals l).map (fun v => ctCount l p v))

/-- `gender_table = pd.crosstab(df['Product'], df['Gender'])`
(src/aerofit_analysis.py line 79). -/
def gender_table (df : List Record) : List (List ℕ) :=
  tableCounts (pairs df (fun r => r.gender))

/-- `marital_table = pd.crosstab(df['Product'], df['MaritalStatus'])`
(src/aerofit_analysis.py line 86). -/
def marital_table (df : List Record) : List (List ℕ) :=
  tableCounts (pairs df (fun r => r.maritalStatus))

/-- Number of rows of the observed table (`observed.shape[0]`). -/
def nRows (t : List (List ℕ)) : ℕ :=
  t.length

/-- Number of columns of the observed table (`observed.shape[1]`). -/
def nCols (t : List (List ℕ)) : ℕ :=
  (t.headD []).length

/-- Column sums of the observed table (the column margins). -/
def colSums (t : List (List ℕ)) : List ℕ :=
  (List.range (nCols t)).map (fun j => (t.map (fun r => r.getD j 0)).sum)

/-- Grand total of the observed table. -/
def grandTotal (t : List (List ℕ)) : ℕ :=
  (t.map List.sum).sum

/-- Expected frequencies `outer(rowsums, colsums) / total` computed by
`scipy.stats.chi2_contingency`. -/
def expectedTable (t : List (List ℕ)) : List (List ℚ) :=
  t.map (fun r =>
    (colSums t).map (fun c => ((r.sum : ℚ) * (c : ℚ)) / (grandTotal t : ℚ)))

/-- scipy's "expected frequencies has a zero element" test, expressed on
the margins: for a table with a nonzero grand total, an expected cell
`rowsum · colsum / total` is zero exactly when a row margin or a column
margin is zero.  (Every table produced by `pd.crosstab` from records has
all margins positive, or is empty.) -/
def marginZero (t : List (List ℕ)) : Bool :=
  (t.map List.sum).any (fun s => s = 0) || (colSums t).any (fun s => s = 0)

/-- Degrees of freedom,
`expected.size - sum(expected.shape) + expected.ndim - 1`
(`(R - 1)(C - 1)` for an R × C table with R, C ≥ 1). -/
def chi2dof (t : List (List ℕ)) : ℕ :=
  nRows t * nCols t + 1 - (nRows t + nCols t)

/-- The chi-square statistic `Σ (o - e)² / e`; when `dof = 1` scipy's
default Yates continuity correction replaces each observed count by
`o + 0.5 · sign(e - o)`. -/
def chi2stat (t : List (List ℕ)) : ℚ :=
  let corr := chi2dof t = 1
  ((t.zip (expectedTable t)).map (fun rc =>
      ((rc.1.zip rc.2).map (fun oe =>
        let o : ℚ := (oe.1 : ℚ)
        let oadj : ℚ :=
          if corr then
            if oe.2 > o then o + 1 / 2
            else if oe.2 < o then o - 1 / 2
            else o
          else o
        (oadj - oe.2) ^ 2 / oe.2)).sum)).sum

/-- The chi-square survival function `chi2.sf(x, k) = 1 - cdf(x)`: the
chi-square distribution with `k` degrees of freedom is the Gamma
distribution with shape `k / 2` and rate `1 / 2`. -/
noncomputable def chi2sf (x : ℝ) (k : ℕ) : ℝ :=
  1 - ProbabilityTheory.gammaCDFReal ((k : ℝ) / 2) (1 / 2) x

/-- `scipy.stats.chi2_contingency` (default `correction=True`,
Pearson statistic): raises on a zero expected frequency, returns
`(0, 1)` for a degenerate table with zero degrees of freedom, and
otherwise returns the statistic and its chi-square survival probability. -/
noncomputable def chi2_contingency (t : List (List ℕ)) :
    Except String (ℚ × ℝ) :=
  if marginZero t then
    Except.error
      "The internally computed table of expected frequencies has a zero element"
  else if chi2dof t = 0 then Except.ok (0, 1)
  else Except.ok (chi2stat t, chi2sf ((chi2stat t : ℚ) : ℝ) (chi2dof t))

/-- A loaded dataframe at the CSV layer: the header and the raw rows of
cell strings.  Numeric coercion happens when a column is aggregated, not
at load time, matching the observable pandas behavior (a malformed numeric
cell leaves the column as objects and only fails when reduced). -/
structure Frame where
  header : List String
  rows : List (List String)
deriving DecidableEq, Repr

/-- `pd.read_csv`: accepts any CSV with a header line and rectangular
rows.  It performs no schema validation whatsoever — no required-column
check and no per-cell numeric check. -/
def read_csv (csv : List (List String)) : Except String Frame :=
  match csv with
  | [] => Except.error "No columns to parse from file"
  | h :: rs =>
      if rs.all (fun r => r.length = h.length) then Except.ok ⟨h, rs⟩
      else Except.error "Error tokenizing data"

/-- `load_data()` (src/dashboard.py lines 131-134): just `pd.read_csv`. -/
def load_data (csv : List (List String)) : Except String Frame :=
  read_csv csv

/-- Column access `df[name]`: the `KeyError` for a missing column arises
here, at use time, never at load time. -/
def getCol (fr : Frame) (name : String) : Except String (List String) :=
  match fr.header.findIdx? (fun h => h = name) with
  | none => Except.error ("KeyError: " ++ name)
  | some i => Except.ok (fr.rows.map (fun r => r.getD i ""))

/-- Value of an unsigned decimal digit string. -/
def digitsToNat (cs : List Char) : ℕ :=
  cs.foldl (fun a c => a * 10 + (c.toNat - 48)) 0

/-- Numeric coercion of one CSV cell (the parse pandas applies to numeric
columns): an optional minus sign, then digits with at most one decimal
point.  `none` for any other string. -/
def parseDecimal (s : String) : Option ℚ :=
  let cs := s.data
  let neg := cs.head? = some '-'
  let cs2 := if neg then cs.tail else cs
  let ip := cs2.takeWhile (fun c => c.isDigit)
  let rest := cs2.drop ip.length
  let fp :=
    match rest with
    | [] => some ([] : List Char)
    | '.' :: f => if f ≠ [] ∧ f.all (fun c => c.isDigit) then some f else none
    | _ => none
  match fp with
  | none => none
  | some f =>
      if ip = [] then none
      else
        let q : ℚ := (digitsToNat (ip ++ f) : ℚ) / ((10 : ℚ) ^ f.length)
        some (if neg then -q else q)

/-- Coerce a whole column to numbers; the first unparseable cell raises —
this is the deferred failure pandas produces when a non-numeric column is
aggregated. -/
def parseNumCol (col : List String) : Except String (List ℚ) :=
  col.mapM (fun s =>
    match parseDecimal s with
    | some q => Except.ok q
    | none => Except.error ("could not convert string to float: " ++ s))

/-- `compute_statistics` at the CSV layer: accesses the seven columns the
pandas code touches (Product, Gender, MaritalStatus, Education as
categoricals; Usage, Miles, Income as numerics) and builds the same six
summary tables as `compute_statistics`.  Any missing column or
non-numeric numeric cell surfaces here. -/
def compute_statistics_frame (fr : Frame) : Except String Stats := do
  let prod ← getCol fr "Product"
  let gender ← getCol fr "Gender"
  let marital ← getCol fr "MaritalStatus"
  let edu ← getCol fr "Education"
  let usage ← parseNumCol (← getCol fr "Usage")
  let miles ← parseNumCol (← getCol fr "Miles")
  let income ← parseNumCol (← getCol fr "Income")
  Except.ok
    { gender_dist := ctTable (prod.zip gender)
      marital_dist := ctTable (prod.zip marital)
      education_dist := ctTable (prod.zip edu)
      usage_stats := aggTable (prod.zip usage)
      miles_stats := aggTable (prod.zip miles)
      income_stats := aggTable (prod.zip income) }

/-- The dashboard's load-then-summarize pipeline
(src/dashboard.py lines 149-151). -/
def pipeline (csv : List (List String)) : Except String Stats :=
  (load_data csv).bind compute_statistics_frame

/-- The CSV header of the repository's data file. -/
def fullHeader : List String :=
  ["Product", "Age", "Gender", "Education", "MaritalStatus", "Usage",
    "Fitness", "Income", "Miles"]

/-- A well-formed CSV with all required columns. -/
def csvGood : List (List String) :=
  [fullHeader,
    ["KP281", "25", "Male", "14", "Single", "3", "3", "30000", "80"],
    ["KP481", "30", "Female", "16", "Partnered", "3", "3", "50000", "100"]]

/-- A CSV whose header is missing the required Gender column. -/
def csvNoGender : List (List String) :=
  [["Product", "Age", "MaritalStatus", "Education", "Usage", "Fitness",
      "Income", "Miles"],
    ["KP281", "25", "Single", "14", "3", "3", "30000", "80"]]

/-- A CSV with a non-numeric value in the numeric Income column. -/
def csvBadIncome : List (List String) :=
  [fullHeader,
    ["KP281", "25", "Male", "14", "Single", "3", "3", "abc", "80"]]

/-- Everything the scripts compute from the record set: the cached summary
tables, the section-level tables, the correlation matrix and the two
chi-square tests.  All of them are value-level reads of `df`; none
reassigns a column or a cell of it. -/
noncomputable def analysis_outputs (df : List Record) :=
  (compute_statistics df, fitness_counts df, fitness_stats df,
    market_share df, corrMatrix df,
    chi2_contingency (gender_table df),
    chi2_contingency (marital_table df))

/-- One full analysis pass: the outputs together with the record set as it
stands after every aggregation has run. -/
noncomputable def analysis_run (df : List Record) :=
  (analysis_outputs df, df)

section SumLemmas

variable {γ κ : Type} [DecidableEq κ]

lemma sum_map_add (V : List κ) (g h : κ → ℕ) :
    (V.map (fun v => g v + h v)).sum = (V.map g).sum + (V.map h).sum := by
  induction V with
  | nil => simp
  | cons v t ih => simp only [List.map_cons, List.sum_cons, ih]; omega

lemma sum_indicator_zero (x : κ) :
    ∀ V : List κ, x ∉ V →
      (V.map (fun v => if x = v then (1 : ℕ) else 0)).sum = 0 := by
  intro V
  induction V with
  | nil => intro _; simp
  | cons v t ih =>
      intro hx
      have hxv : ¬x = v := fun h => hx (h ▸ List.mem_cons_self v t)
      have hxt : x ∉ t := fun h => hx (List.mem_cons_of_mem v h)
      simp [hxv, ih hxt]

lemma sum_indicator (x : κ) :
    ∀ V : List κ, V.Nodup → x ∈ V →
      (V.map (fun v => if x = v then (1 : ℕ) else 0)).sum = 1 := by
  intro V
  induction V with
  | nil => intro _ h; simp at h
  | cons v t ih =>
      intro hnd hx
      obtain ⟨hvt, hndt⟩ := List.nodup_cons.mp hnd
      rcases List.mem_cons.mp hx with h | h
      · subst h
        simp [sum_indicator_zero x t hvt]
      · have hxv : ¬x = v := fun he => hvt (he ▸ h)
        simp [hxv, ih hndt h]

/-- Partitioning a list by the (deduplicated) values of `f` recovers its
length: the row total of a contingency table equals the sum of its cells. -/
lemma sum_filter_len (V : List κ) (f : γ → κ) (hV : V.Nodup) :
    ∀ l : List γ, (∀ a ∈ l, f a ∈ V) →
      (V.map (fun v => (l.filter (fun a => f a = v)).length)).sum = l.length := by
  intro l
  induction l with
  | nil => intro _; simp
  | cons a t ih =>
      intro hl
      have ha : f a ∈ V := hl a (List.mem_cons_self a t)
      have ht : ∀ b ∈ t, f b ∈ V := fun b hb => hl b (List.mem_cons_of_mem a hb)
      have hstep : ∀ v ∈ V,
          ((a :: t).filter (fun x => f x = v)).length
            = (if f a = v then 1 else 0) + (t.filter (fun x => f x = v)).length := by
        intro v _
        by_cases h : f a = v
        · simp [List.filter_cons, h, Nat.add_comm]
        · simp [List.filter_cons, h]
      rw [List.map_congr_left hstep, sum_map_add,
        sum_indicator (f a) V hV ha, ih ht]
      simp [Nat.add_comm]

lemma sum_map_cast_mul (V : List κ) (g : κ → ℕ) (k : ℚ) :
    (V.map (fun v => (g v : ℚ) * k)).sum = ((V.map g).sum : ℚ) * k := by
  induction V with
  | nil => simp
  | cons v t ih =>
      simp only [List.map_cons, List.sum_cons, ih]
      push_cast
      ring

end SumLemmas

section TableLemmas

variable {α β γ : Type} [DecidableEq α] [DecidableEq β]

lemma ctCount_filter (l : List (α × β)) (p : α) (v : β) :
    ctCount l p v
      = ((l.filter (fun x => x.1 = p)).filter (fun a => a.2 = v)).length := by
  induction l with
  | nil => rfl
  | cons a t ih =>
      by_cases h1 : a.1 = p <;> by_cases h2 : a.2 = v <;>
        simp [ctCount, List.filter_cons, h1, h2] at ih ⊢ <;> omega

lemma mem_tableKeys_of_pos (l : List (α × β)) (p : α) (h : 0 < keyCount l p) :
    p ∈ tableKeys l := by
  unfold keyCount at h
  obtain ⟨x, hx⟩ := List.exists_mem_of_ne_nil _ (List.length_pos.mp h)
  obtain ⟨hxl, hxp⟩ := List.mem_filter.mp hx
  have hxp : x.1 = p := of_decide_eq_true hxp
  exact List.mem_dedup.mpr (hxp ▸ List.mem_map_of_mem Prod.fst hxl)

lemma keyCount_pos_of_mem (l : List (α × β)) (p : α) (h : p ∈ tableKeys l) :
    0 < keyCount l p := by
  obtain ⟨x, hxl, hxp⟩ := List.mem_map.mp (List.mem_dedup.mp h)
  unfold keyCount
  have : x ∈ l.filter (fun x => x.1 = p) :=
    List.mem_filter.mpr ⟨hxl, decide_eq_true hxp⟩
  exact List.length_pos.mpr (List.ne_nil_of_mem this)

lemma lookup_map_keys (g : α → γ) (p : α) :
    ∀ V : List α, p ∈ V →
      lookupRow (V.map (fun q => (q, g q))) p = some (g p) := by
  intro V
  induction V with
  | nil => intro h; simp at h
  | cons q t ih =>
      intro hp
      by_cases h : q = p
      · subst h
        simp [lookupRow, List.find?_cons]
      · have hpt : p ∈ t := by
          rcases List.mem_cons.mp hp with h1 | h1
          · exact absurd h1.symm h
          · exact h1
        have := ih hpt
        simpa [lookupRow, List.find?_cons, h] using this

lemma lookup_map_keys_none (g : α → γ) (p : α) :
    ∀ V : List α, p ∉ V →
      lookupRow (V.map (fun q => (q, g q))) p = none := by
  intro V
  induction V with
  | nil => intro _; rfl
  | cons q t ih =>
      intro hp
      have hqp : ¬q = p := fun h => hp (h ▸ List.mem_cons_self q t)
      have hpt : p ∉ t := fun h => hp (List.mem_cons_of_mem q h)
      have := ih hpt
      simpa [lookupRow, List.find?_cons, hqp] using this

/-- Each row of the row-normalized percentage table sums to exactly 100,
provided its index value occurs in the data (so its row total is nonzero). -/
lemma row_sum_100 (l : List (α × β)) (p : α) (h : 0 < keyCount l p) :
    ((tableVals l).map (fun v => ctPct l p v)).sum = 100 := by
  have hn : (keyCount l p : ℚ) ≠ 0 :=
    Nat.cast_ne_zero.mpr (Nat.pos_iff_ne_zero.mp h)
  have hstep : ∀ v ∈ tableVals l,
      ctPct l p v
        = (((l.filter (fun x => x.1 = p)).filter
              (fun a => Prod.snd a = v)).length : ℚ)
            * (100 / (keyCount l p : ℚ)) := by
    intro v _
    rw [ctPct, ctCount_filter, div_mul_eq_mul_div, mul_div_assoc]
  rw [List.map_congr_left hstep, sum_map_cast_mul]
  have hV : (tableVals l).Nodup := List.nodup_dedup _
  have hmem : ∀ a ∈ l.filter (fun x => x.1 = p), Prod.snd a ∈ tableVals l := by
    intro a ha
    exact List.mem_dedup.mpr
      (List.mem_map_of_mem Prod.snd (List.mem_of_mem_filter ha))
  rw [sum_filter_len (tableVals l) Prod.snd hV _ hmem]
  show ((keyCount l p : ℚ)) * (100 / (keyCount l p : ℚ)) = 100
  rw [mul_comm, div_mul_cancel₀ _ hn]

lemma lookup_ctTable (l : List (α × β)) (p : α) (h : p ∈ tableKeys l) :
    lookupRow (ctTable l) p = some ((tableVals l).map (fun v => ctPct l p v)) := by
  exact lookup_map_keys _ p (tableKeys l) h

lemma lookup_ctTable_sum (l : List (α × β)) (p : α) (h : 0 < keyCount l p) :
    (lookupRow (ctTable l) p).map List.sum = some 100 := by
  rw [lookup_ctTable l p (mem_tableKeys_of_pos l p h)]
  simp [row_sum_100 l p h]

end TableLemmas

section Transport

lemma keyCount_pairs {κ : Type} [DecidableEq κ] (df : List Record)
    (f : Record → κ) (p : String) :
    keyCount (pairs df f) p = rowCount df p := by
  induction df with
  | nil => rfl
  | cons r t ih =>
      by_cases h : r.product = p <;>
        simp [keyCount, rowCount, pairs, List.filter_cons, h] at ih ⊢ <;>
        omega

lemma tableKeys_pairs {κ : Type} [DecidableEq κ] (df : List Record)
    (f : Record → κ) :
    tableKeys (pairs df f) = productKeys df := by
  unfold tableKeys productKeys pairs
  rw [List.map_map]
  rfl

end Transport

/-- C1: for every loaded record set and every product category present in
it, each row of the row-normalized percentage distribution tables (gender,
marital status, education-years, and fitness rating conditioned on product,
computed as crosstab with normalize='index' times 100) sums to 100% —
exactly 100 in exact arithmetic. -/
theorem c1_dist_rows_sum_100 (df : List Record) (p : String)
    (h : 0 < rowCount df p) :
    ((lookupRow (compute_statistics df).gender_dist p).map List.sum = some 100)
      ∧ ((lookupRow (compute_statistics df).marital_dist p).map List.sum
          = some 100)
      ∧ ((lookupRow (compute_statistics df).education_dist p).map List.sum
          = some 100)
      ∧ ((lookupRow (fitness_counts df) p).map List.sum = some 100) := by
  refine ⟨?_, ?_, ?_, ?_⟩ <;>
    exact lookup_ctTable_sum _ p (by rw [keyCount_pairs]; exact h)

/-- Witness for C1 at a concrete data set and the product "KP281". -/
theorem c1_witness :
    0 < rowCount dfSample "KP281"
      ∧ (((lookupRow (compute_statistics dfSample).gender_dist "KP281").map
            List.sum = some 100)
          ∧ ((lookupRow (compute_statistics dfSample).marital_dist "KP281").map
              List.sum = some 100)
          ∧ ((lookupRow (compute_statistics dfSample).education_dist
                "KP281").map List.sum = some 100)
          ∧ ((lookupRow (fitness_counts dfSample) "KP281").map List.sum
              = some 100)) :=
  ⟨by decide, c1_dist_rows_sum_100 dfSample "KP281" (by decide)⟩

/-- C2: for every product group containing exactly one record, the
group-summary operation (groupby-agg over mean, median, std) returns a
defined mean (and median) equal to that record's value and an
undefined/NaN standard deviation; and the standard deviation of a
single-element or empty group is NaN (`none`) — also after the pipeline's
`.round(2)` — never the number zero. -/
theorem c2_singleton_group_agg :
    (∀ (df : List Record) (p : String) (f : Record → ℚ) (v : ℚ),
        valuesFor df p f = [v] →
          aggRow (valuesFor df p f) = ⟨some v, some v, none⟩)
      ∧ (∀ (df : List Record) (p : String) (f : Record → ℚ),
          (valuesFor df p f).length ≤ 1 →
            (aggRow (valuesFor df p f)).stdSq = none
              ∧ (round2Agg (aggRow (valuesFor df p f))).stdSq = none) := by
  constructor
  · intro df p f v h
    rw [h]
    simp [aggRow, smean, smedian, sstdSq, sortAsc, insertSorted]
  · intro df p f h
    cases hl : valuesFor df p f with
    | nil => simp [aggRow, sstdSq, round2Agg]
    | cons a t =>
        cases t with
        | nil => simp [aggRow, sstdSq, round2Agg]
        | cons b u =>
            rw [hl] at h
            simp at h

/-- Witness for C2: the income group of "KP481" in the sample data holds
exactly the one value 50000. -/
theorem c2_witness :
    valuesFor dfSample "KP481" (fun r => r.income) = [50000]
      ∧ aggRow (valuesFor dfSample "KP481" (fun r => r.income))
          = ⟨some 50000, some 50000, none⟩
      ∧ (valuesFor dfSample "KP481" (fun r => r.income)).length ≤ 1
      ∧ (aggRow (valuesFor dfSample "KP481" (fun r => r.income))).stdSq = none
      ∧ (round2Agg (aggRow (valuesFor dfSample "KP481"
          (fun r => r.income)))).stdSq = none := by
  refine ⟨by decide, ?_, by decide, ?_, ?_⟩
  · exact c2_singleton_group_agg.1 dfSample "KP481" (fun r => r.income) 50000
      (by decide)
  · exact (c2_singleton_group_agg.2 dfSample "KP481" (fun r => r.income)
      (by decide)).1
  · exact (c2_singleton_group_agg.2 dfSample "KP481" (fun r => r.income)
      (by decide)).2

lemma market_share_sum (df : List Record) (h : df ≠ []) :
    ((market_share df).map Prod.snd).sum = 100 := by
  have hN : ((df.length : ℚ)) ≠ 0 :=
    Nat.cast_ne_zero.mpr (fun h0 => h (List.length_eq_zero.mp h0))
  unfold market_share
  rw [List.map_map]
  have hstep : ∀ p ∈ productKeys df,
      (Prod.snd ∘ fun p => (p, (rowCount df p : ℚ) / (df.length : ℚ) * 100)) p
        = ((df.filter (fun a => Record.product a = p)).length : ℚ)
            * (100 / (df.length : ℚ)) := by
    intro p _
    show (rowCount df p : ℚ) / (df.length : ℚ) * 100 = _
    rw [rowCount, div_mul_eq_mul_div, mul_div_assoc]
  rw [List.map_congr_left hstep, sum_map_cast_mul]
  rw [sum_filter_len (productKeys df) Record.product (List.nodup_dedup _) df
    (fun a ha => List.mem_dedup.mpr (List.mem_map_of_mem _ ha))]
  rw [mul_comm, div_mul_cancel₀ _ hN]

/-- C7: for every nonempty record set, the market-share operation
(value_counts normalized times 100 over the product column) yields
percentages that sum to 100% and each equal that product's record count
divided by the total record count times 100; in particular for group sizes
{10, 8, 6} over products {A, B, C} each share equals count/24 × 100. -/
theorem c7_market_share :
    (∀ df : List Record, df ≠ [] →
        ((market_share df).map Prod.snd).sum = 100
          ∧ ∀ p val, (p, val) ∈ market_share df →
              val = (rowCount df p : ℚ) / (df.length : ℚ) * 100)
      ∧ (lookupRow (market_share dfABC) "A" = some ((10 : ℚ) / 24 * 100)
          ∧ lookupRow (market_share dfABC) "B" = some ((8 : ℚ) / 24 * 100)
          ∧ lookupRow (market_share dfABC) "C" = some ((6 : ℚ) / 24 * 100)
          ∧ ((market_share dfABC).map Prod.snd).sum = 100) := by
  constructor
  · intro df h
    refine ⟨market_share_sum df h, ?_⟩
    intro p val hmem
    obtain ⟨q, _, heq⟩ := List.mem_map.mp hmem
    injection heq with h1 h2
    subst h1
    exact h2.symm
  · have hlen : dfABC.length = 24 := by decide
    have hA : rowCount dfABC "A" = 10 := by decide
    have hB : rowCount dfABC "B" = 8 := by decide
    have hC : rowCount dfABC "C" = 6 := by decide
    refine ⟨?_, ?_, ?_, market_share_sum dfABC (by decide)⟩
    · rw [market_share, lookup_map_keys _ _ _ (show "A" ∈ productKeys dfABC by decide),
        hA, hlen]
      norm_num
    · rw [market_share, lookup_map_keys _ _ _ (show "B" ∈ productKeys dfABC by decide),
        hB, hlen]
      norm_num
    · rw [market_share, lookup_map_keys _ _ _ (show "C" ∈ productKeys dfABC by decide),
        hC, hlen]
      norm_num

/-- Witness for C7 at the concrete three-record sample. -/
theorem c7_witness :
    dfSample ≠ []
      ∧ ((market_share dfSample).map Prod.snd).sum = 100
      ∧ ∀ p val, (p, val) ∈ market_share dfSample →
          val = (rowCount dfSample p : ℚ) / (dfSample.length : ℚ) * 100 := by
  refine ⟨by decide, ?_⟩
  have h := c7_market_share.1 dfSample (by decide)
  exact ⟨h.1, h.2⟩

/-- C7 counterexample to the unrestricted claim: for the empty record set
the market-share percentages sum to 0, not 100 (`value_counts` of an empty
column is an empty series). -/
theorem c7_counterexample :
    ((market_share ([] : List Record)).map Prod.snd).sum ≠ 100 := by
  norm_num [market_share, productKeys]

lemma lookup_ctTable_none {α β : Type} [DecidableEq α] [DecidableEq β]
    (l : List (α × β)) (p : α) (h : p ∉ tableKeys l) :
    lookupRow (ctTable l) p = none :=
  lookup_map_keys_none _ p _ h

lemma not_mem_pairs_keys {κ : Type} [DecidableEq κ] (df : List Record)
    (f : Record → κ) (p : String) (h : rowCount df p = 0) :
    p ∉ tableKeys (pairs df f) := by
  intro hmem
  have hpos := keyCount_pos_of_mem _ p hmem
  rw [keyCount_pairs] at hpos
  omega

/-- C8: a product category with zero records yields no row in the
percentage-distribution tables (the `.loc` lookup is undefined, modelling
the absent row), and every row that is computed has a nonzero record count
as its normalization divisor, so the divide-by-zero branch is unreachable. -/
theorem c8_zero_group_no_crash :
    ∀ (df : List Record) (p : String),
      (rowCount df p = 0 →
          lookupRow (compute_statistics df).gender_dist p = none
            ∧ lookupRow (compute_statistics df).marital_dist p = none
            ∧ lookupRow (compute_statistics df).education_dist p = none)
        ∧ ∀ q ∈ productKeys df, ((rowCount df q : ℚ)) ≠ 0 := by
  intro df p
  constructor
  · intro h
    refine ⟨?_, ?_, ?_⟩ <;>
      exact lookup_ctTable_none _ p (not_mem_pairs_keys df _ p h)
  · intro q hq
    have hq2 : q ∈ tableKeys (pairs df (fun r => r.gender)) := by
      rw [tableKeys_pairs]
      exact hq
    have hpos := keyCount_pos_of_mem _ q hq2
    rw [keyCount_pairs] at hpos
    exact Nat.cast_ne_zero.mpr (Nat.pos_iff_ne_zero.mp hpos)

/-- Witness for C8: in `dfMissing` the product "KP781" has no records, its
distribution rows are absent, and both computed rows have nonzero
divisors. -/
theorem c8_witness :
    rowCount dfMissing "KP781" = 0
      ∧ (lookupRow (compute_statistics dfMissing).gender_dist "KP781" = none
          ∧ lookupRow (compute_statistics dfMissing).marital_dist "KP781"
              = none
          ∧ lookupRow (compute_statistics dfMissing).education_dist "KP781"
              = none)
      ∧ ∀ q ∈ productKeys dfMissing, ((rowCount dfMissing q : ℚ)) ≠ 0 := by
  have h := c8_zero_group_no_crash dfMissing "KP781"
  exact ⟨by decide, h.1 (by decide), h.2⟩

/-- C10: the Customer Segments / Usage Analysis / Financial Insights
sections look up the summary tables by the literal labels KP281, KP481 and
KP781; whenever all three labels occur in the record set every lookup
succeeds, and for a record set missing one label the lookup fails (the
KeyError branch is reachable: rendering fails rather than showing an empty
row). -/
theorem c10_section_label_lookups :
    (∀ df : List Record,
        (∀ lab ∈ section_labels, lab ∈ productKeys df) →
          ∀ lab ∈ section_labels,
            (lookupRow (fitness_stats df) lab).isSome = true
              ∧ (lookupRow (market_share df) lab).isSome = true)
      ∧ lookupRow (fitness_stats dfMissing) "KP781" = none
      ∧ lookupRow (market_share dfMissing) "KP781" = none := by
  refine ⟨?_, by decide, by decide⟩
  intro df hall lab hlab
  have hmem : lab ∈ productKeys df := hall lab hlab
  constructor
  · have hmem2 : lab ∈ tableKeys (pairs df (fun r => r.fitness)) := by
      rw [tableKeys_pairs]
      exact hmem
    rw [fitness_stats, aggTable, lookup_map_keys _ lab _ hmem2]
    rfl
  · rw [market_share, lookup_map_keys _ lab _ hmem]
    rfl

/-- Witness for C10: in the three-product sample every section-label lookup
succeeds. -/
theorem c10_witness :
    (∀ lab ∈ section_labels, lab ∈ productKeys dfSample)
      ∧ ((lookupRow (fitness_stats dfSample) "KP781").isSome = true
          ∧ (lookupRow (market_share dfSample) "KP781").isSome = true) :=
  ⟨by decide,
    c10_section_label_lookups.1 dfSample (by decide) "KP781" (by decide)⟩

lemma zip_dev_comm (a b : ℚ) :
    ∀ xs ys : List ℚ,
      ((xs.zip ys).map (fun q => (q.1 - a) * (q.2 - b))).sum
        = ((ys.zip xs).map (fun q => (q.1 - b) * (q.2 - a))).sum := by
  intro xs
  induction xs with
  | nil => intro ys; cases ys <;> simp
  | cons x t ih =>
      intro ys
      cases ys with
      | nil => simp
      | cons y u =>
          simp only [List.zip_cons_cons, List.map_cons, List.sum_cons, ih u]
          ring

lemma sxy_comm (xs ys : List ℚ) : sxy xs ys = sxy ys xs := by
  unfold sxy
  exact zip_dev_comm _ _ xs ys

lemma zip_self_sq (a : ℚ) :
    ∀ xs : List ℚ,
      ((xs.zip xs).map (fun q => (q.1 - a) * (q.2 - a))).sum
        = (xs.map (fun x => (x - a) ^ 2)).sum := by
  intro xs
  induction xs with
  | nil => simp
  | cons x t ih =>
      simp only [List.zip_cons_cons, List.map_cons, List.sum_cons, ih]
      ring

lemma sxx_eq_sum_sq (xs : List ℚ) :
    sxy xs xs = (xs.map (fun x => (x - xs.sum / (xs.length : ℚ)) ^ 2)).sum := by
  unfold sxy
  exact zip_self_sq _ xs

lemma sxx_nonneg (xs : List ℚ) : 0 ≤ sxy xs xs := by
  rw [sxx_eq_sum_sq]
  apply List.sum_nonneg
  intro x hx
  obtain ⟨y, _, rfl⟩ := List.mem_map.mp hx
  exact sq_nonneg _

/-- C5 (amended): for every record set the correlation matrix over the six
numeric fields is symmetric, and the diagonal entry of every field with
nonzero squared-deviation sum (a non-constant column) equals 1.0. -/
theorem c5_correlation_symm_diag :
    (∀ df : List Record, ∀ f ∈ numeric_cols, ∀ g ∈ numeric_cols,
        correlation df f g = correlation df g f)
      ∧ (∀ df : List Record, ∀ f ∈ numeric_cols,
          sxy (df.map f) (df.map f) ≠ 0 → correlation df f f = some 1) := by
  constructor
  · intro df f _ g _
    unfold correlation corrSgnSq
    rw [sxy_comm (df.map f) (df.map g),
      mul_comm (sxy (df.map f) (df.map f)) (sxy (df.map g) (df.map g))]
  · intro df f _ hne
    unfold correlation corrSgnSq
    have hpos : 0 < sxy (df.map f) (df.map f) :=
      lt_of_le_of_ne (sxx_nonneg _) (Ne.symm hne)
    rw [if_neg (by exact fun h => hne (by exact mul_self_eq_zero.mp h))]
    rw [abs_of_pos hpos, div_self (mul_ne_zero hne hne)]

/-- C5 counterexample: on a record set whose Age column is constant, the
diagonal correlation entry for Age is NaN, not 1.0 (pandas divides by a
zero standard deviation and produces NaN). -/
theorem c5_counterexample :
    (fun r : Record => r.age) ∈ numeric_cols
      ∧ correlation [rKP281, rKP281] (fun r => r.age) (fun r => r.age)
          ≠ some 1 := by
  constructor
  · simp [numeric_cols]
  · have h : sxy ([rKP281, rKP281].map (fun r => r.age))
        ([rKP281, rKP281].map (fun r => r.age)) = 0 := by
      norm_num [sxy, rKP281]
    unfold correlation corrSgnSq
    rw [h]
    simp

/-- Witness for C5 at the three-record sample, whose Age column is not
constant. -/
theorem c5_witness :
    ((fun r : Record => r.age) ∈ numeric_cols
        ∧ (fun r : Record => r.income) ∈ numeric_cols
        ∧ correlation dfSample (fun r => r.age) (fun r => r.income)
            = correlation dfSample (fun r => r.income) (fun r => r.age))
      ∧ (sxy (dfSample.map (fun r => r.age)) (dfSample.map (fun r => r.age))
            ≠ 0
          ∧ correlation dfSample (fun r => r.age) (fun r => r.age)
              = some 1) := by
  have hf : (fun r : Record => r.age) ∈ numeric_cols := by simp [numeric_cols]
  have hg : (fun r : Record => r.income) ∈ numeric_cols := by
    simp [numeric_cols]
  have hs : sxy (dfSample.map (fun r => r.age))
      (dfSample.map (fun r => r.age)) ≠ 0 := by
    norm_num [sxy, dfSample, rKP281, rKP481, rKP781]
  exact ⟨⟨hf, hg, c5_correlation_symm_diag.1 dfSample _ hf _ hg⟩,
    hs, c5_correlation_symm_diag.2 dfSample _ hf hs⟩

lemma chi2sf_nonneg (x : ℝ) (k : ℕ) : 0 ≤ chi2sf x k := by
  unfold chi2sf
  have h := ProbabilityTheory.cdf_le_one
    (ProbabilityTheory.gammaMeasure ((k : ℝ) / 2) (1 / 2)) x
  unfold ProbabilityTheory.gammaCDFReal
  linarith

lemma chi2sf_le_one (x : ℝ) (k : ℕ) : chi2sf x k ≤ 1 := by
  unfold chi2sf
  have h := ProbabilityTheory.cdf_nonneg
    (ProbabilityTheory.gammaMeasure ((k : ℝ) / 2) (1 / 2)) x
  unfold ProbabilityTheory.gammaCDFReal
  linarith

/-- C6: for every record set, the p-value returned by the chi-square
independence test for (product × gender) and for (product × marital
status) lies in the closed interval [0, 1]. -/
theorem c6_chi2_pvalue_unit_interval :
    ∀ (df : List Record) (s : ℚ) (p : ℝ),
      (chi2_contingency (gender_table df) = Except.ok (s, p)
          ∨ chi2_contingency (marital_table df) = Except.ok (s, p)) →
        0 ≤ p ∧ p ≤ 1 := by
  have key : ∀ (t : List (List ℕ)) (s : ℚ) (p : ℝ),
      chi2_contingency t = Except.ok (s, p) → 0 ≤ p ∧ p ≤ 1 := by
    intro t s p h
    unfold chi2_contingency at h
    split_ifs at h
    · rw [Except.ok.injEq, Prod.mk.injEq] at h
      obtain ⟨hs, hp⟩ := h
      subst hp
      norm_num
    · rw [Except.ok.injEq, Prod.mk.injEq] at h
      obtain ⟨hs, hp⟩ := h
      subst hp
      exact ⟨chi2sf_nonneg _ _, chi2sf_le_one _ _⟩
  intro df s p h
  rcases h with h | h
  · exact key _ s p h
  · exact key _ s p h

/-- Witness for C6: a one-record data set produces the degenerate 1 × 1
contingency table, for which the test returns p = 1. -/
theorem c6_witness :
    chi2_contingency (gender_table [rKP281]) = Except.ok (0, 1)
      ∧ (0 ≤ (1 : ℝ) ∧ (1 : ℝ) ≤ 1) :=
  ⟨rfl, c6_chi2_pvalue_unit_interval [rKP281] 0 1 (Or.inl rfl)⟩

/-- C3 counterexample: a CSV missing the required Gender column loads
successfully — `load_data` performs no validation — and the defect only
surfaces afterwards, as a KeyError inside the summary computation.  The
claimed immediate load-time failure does not happen. -/
theorem c3_counterexample :
    load_data csvNoGender
        = Except.ok
            ⟨["Product", "Age", "MaritalStatus", "Education", "Usage",
                "Fitness", "Income", "Miles"],
              [["KP281", "25", "Single", "14", "3", "3", "30000", "80"]]⟩
      ∧ pipeline csvNoGender = Except.error "KeyError: Gender" :=
  ⟨rfl, rfl⟩

/-- C3 (amended): the load operation performs no input validation — every
rectangular CSV loads successfully whatever its columns or cell contents —
and a missing required column or non-numeric numeric value surfaces only
later, as an error of the summary computation that touches it. -/
theorem c3_load_defers_validation :
    (∀ (h : List String) (rs : List (List String)),
        (∀ r ∈ rs, r.length = h.length) →
          load_data (h :: rs) = Except.ok ⟨h, rs⟩)
      ∧ pipeline csvNoGender = Except.error "KeyError: Gender"
      ∧ pipeline csvBadIncome
          = Except.error "could not convert string to float: abc" := by
  refine ⟨?_, rfl, rfl⟩
  intro h rs hrect
  show (if (rs.all fun r => decide (r.length = h.length)) = true
      then Except.ok (⟨h, rs⟩ : Frame)
      else Except.error "Error tokenizing data") = Except.ok ⟨h, rs⟩
  rw [if_pos (List.all_eq_true.mpr (fun r hr => decide_eq_true (hrect r hr)))]

/-- Witness for C3 (amended) at a concrete rectangular CSV. -/
theorem c3_witness :
    (∀ r ∈ csvGood.tail, r.length = fullHeader.length)
      ∧ load_data (fullHeader :: csvGood.tail)
          = Except.ok ⟨fullHeader, csvGood.tail⟩ :=
  ⟨by decide, c3_load_defers_validation.1 fullHeader csvGood.tail (by decide)⟩

/-- C4: the aggregation pipeline is deterministic — running load followed
by the summary computation on the same CSV contents yields identical
summary tables; the embedding is a pure function of the CSV contents, so
two runs coincide. -/
theorem c4_pipeline_deterministic :
    ∀ csv1 csv2 : List (List String),
      csv1 = csv2 → pipeline csv1 = pipeline csv2 :=
  fun _ _ h => h ▸ rfl

/-- Witness for C4: two runs on the same concrete CSV agree. -/
theorem c4_witness :
    csvGood = csvGood ∧ pipeline csvGood = pipeline csvGood :=
  ⟨rfl, c4_pipeline_deterministic csvGood csvGood rfl⟩

/-- C9: every aggregation operation (group summaries, distribution tables,
correlation, chi-square) leaves the loaded record set unchanged: after the
whole analysis pass the record set equals the input, field for field and
row for row. -/
theorem c9_aggregations_pure :
    ∀ df : List Record, (analysis_run df).2 = df :=
  fun _ => rfl

end Aerofit
